import Mathlib

/-!
Shallow embedding of `trendradar/core/content_filter.py`.

The module has three functions:
  * `matches_content_category title config` — keyword matcher;
  * `filter_results_by_category results config quiet` — filters a
    source → title → payload mapping;
  * `filter_rss_items_by_category items config quiet` — filters a flat
    list of items carrying an optional `title` field.

Python dictionaries are embedded as association lists (they preserve
insertion order), `dict.get` with a default as `Option.getD` over optional
fields, and the `print` side effect as an explicit list of emitted lines
returned next to the filtered collection.  Pythons substring test
`needle in haystack` is embedded as `List.IsInfix` on the character data,
and `str.lower` as a character-wise Unicode lowercase map over a
documented repertoire (see `pyLowerChar`).
-/

namespace TrendRadar

/-- Character-wise Unicode lowercasing as performed by CPythons
`str.lower()`.  The map agrees with CPython on every character of ASCII,
of the Latin-1 Supplement (`À`–`Þ` except `×` shift by 0x20; `ß` and the
other non-cased or already-lowercase code points are unchanged) and of the
basic Cyrillic block (U+0400–U+040F shift by 0x50, U+0410–U+042F shift by
0x20), and is the identity elsewhere.  CPython additionally lowercases
further scripts, a few of whose mappings are context-sensitive or
one-to-many (Greek final sigma, U+0130) and hence expressible by no
character-to-character map; every string appearing in the development lies
in the covered repertoire. -/
def pyLowerChar (c : Char) : Char :=
  if 0x41 ≤ c.toNat ∧ c.toNat ≤ 0x5A then Char.ofNat (c.toNat + 0x20)
  else if 0xC0 ≤ c.toNat ∧ c.toNat ≤ 0xD6 then Char.ofNat (c.toNat + 0x20)
  else if 0xD8 ≤ c.toNat ∧ c.toNat ≤ 0xDE then Char.ofNat (c.toNat + 0x20)
  else if 0x400 ≤ c.toNat ∧ c.toNat ≤ 0x40F then Char.ofNat (c.toNat + 0x50)
  else if 0x410 ≤ c.toNat ∧ c.toNat ≤ 0x42F then Char.ofNat (c.toNat + 0x20)
  else c

/-- Character-wise lowercasing, embedding Pythons `str.lower()`. -/
def lowerStr (s : String) : String := String.mk (s.data.map pyLowerChar)

/-- Pythons substring test `needle in haystack`.  The empty needle is a
substring of every string, exactly as in Python. -/
def strContains (haystack needle : String) : Bool :=
  decide (needle.data <:+: haystack.data)

/-- The content-filter configuration dictionary.  Each field is `none` when
the corresponding key is absent from the dictionary. -/
structure FilterConfig where
  ENABLED : Option Bool
  CATEGORIES : Option (List String)
  KEYWORDS : Option (List (String × List String))
deriving DecidableEq

/-- `config.get("ENABLED", False)`. -/
def FilterConfig.enabledD (c : FilterConfig) : Bool := c.ENABLED.getD false

/-- `config.get("CATEGORIES", [])`. -/
def FilterConfig.categoriesD (c : FilterConfig) : List String :=
  c.CATEGORIES.getD []

/-- `config.get("KEYWORDS", {})`. -/
def FilterConfig.keywordsD (c : FilterConfig) : List (String × List String) :=
  c.KEYWORDS.getD []

/-- `keywords.get(category, [])`. -/
def FilterConfig.categoryKeywords (c : FilterConfig) (category : String) :
    List String :=
  (c.keywordsD.lookup category).getD []

/-- `matches_content_category(title, content_filter_config)`: true when the
filter is disabled or the configuration is incomplete; otherwise true iff
some keyword of some allowed category is a case-insensitive substring of
the title.  The double `any` mirrors the double `for` loop with its early
`return True`. -/
def matches_content_category (title : String) (c : FilterConfig) : Bool :=
  if !c.enabledD then true
  else if c.categoriesD.isEmpty || c.keywordsD.isEmpty then true
  else
    let title_lower := lowerStr title
    c.categoriesD.any fun category =>
      (c.categoryKeywords category).any fun keyword =>
        strContains title_lower (lowerStr keyword)

/-- The inner `for title, title_data in titles_data.items()` loop: keep the
entries whose title matches. -/
def filterTitles (c : FilterConfig) (titles_data : List (String × α)) :
    List (String × α) :=
  titles_data.filter fun p => matches_content_category p.1 c

/-- The outer `for source_id, titles_data in results.items()` loop: filter
each title map and keep the source only when the filtered map is
non-empty (`if filtered_titles:`). -/
def filterSources (c : FilterConfig)
    (results : List (String × List (String × α))) :
    List (String × List (String × α)) :=
  results.filterMap fun p =>
    let ft := filterTitles c p.2
    if ft.isEmpty then none else some (p.1, ft)

/-- `total_before` / `total_after`: the sum of the title-map sizes. -/
def totalTitles (results : List (String × List (String × α))) : Nat :=
  (results.map fun p => p.2.length).sum

def commaSep : String := ", "

def emptyString : String := ""

/-- The summary line printed by `filter_results_by_category`. -/
def resultSummaryLine (before after : Nat) (c : FilterConfig) : String :=
  "内容分类过滤: " ++ toString before ++ " → " ++ toString after ++
    " 条 (分类: " ++ String.intercalate commaSep c.categoriesD ++ ")"

/-- `filter_results_by_category(results, content_filter_config, quiet)`.
The first component is the returned dictionary, the second the list of
lines printed during the call. -/
def filter_results_by_category (results : List (String × List (String × α)))
    (c : FilterConfig) (quiet : Bool) :
    List (String × List (String × α)) × List String :=
  if !c.enabledD then (results, [])
  else
    let filtered := filterSources c results
    (filtered,
      if quiet then []
      else [resultSummaryLine (totalTitles results) (totalTitles filtered) c])

/-- An RSS item: a dictionary with an optional `title` key and an opaque
payload standing for all its other keys. -/
structure RssItem (α : Type) where
  title : Option String
  payload : α
deriving DecidableEq

/-- `item.get("title", "")`. -/
def RssItem.titleD (it : RssItem α) : String := it.title.getD emptyString

/-- The summary line printed by `filter_rss_items_by_category`. -/
def rssSummaryLine (before after : Nat) (c : FilterConfig) : String :=
  "RSS 内容分类过滤: " ++ toString before ++ " → " ++ toString after ++
    " 条 (分类: " ++ String.intercalate commaSep c.categoriesD ++ ")"

/-- `filter_rss_items_by_category(rss_items, content_filter_config, quiet)`.
The first component is the returned list, the second the list of lines
printed during the call. -/
def filter_rss_items_by_category (rss_items : List (RssItem α))
    (c : FilterConfig) (quiet : Bool) : List (RssItem α) × List String :=
  if !c.enabledD then (rss_items, [])
  else if rss_items.isEmpty then (rss_items, [])
  else
    let filtered := rss_items.filter fun it =>
      matches_content_category it.titleD c
    (filtered,
      if quiet then []
      else [rssSummaryLine rss_items.length filtered.length c])

/-- The list of (source, title) key pairs of a result set. -/
def resultPairs (results : List (String × List (String × α))) :
    List (String × String) :=
  results.flatMap fun p => p.2.map fun t => (p.1, t.1)

/-! Concrete data used by witnesses and counterexamples, taken from the
scenarios of the specification. -/

def financeCat : String := "finance"
def kwStock : String := "stock"
def kwMarket : String := "market"
def techCat : String := "tech"
def kwAI : String := "AI"
def riseTitle : String := "the rise of ai models"
def titleStock : String := "A stock tip"
def titleWeather : String := "Weather forecast"
def titleSports : String := "Sports update"
def tSurge : String := "Stock prices surge"
def tWeatherToday : String := "Local weather today"
def tFlat : String := "Market closes flat"
def src1 : String := "src1"
def src2 : String := "src2"
def catC : String := "c"

/-- A configuration whose dictionary has no keys at all. -/
def cfgOff : FilterConfig := ⟨none, none, none⟩

/-- The scenario configuration: finance category with two keywords. -/
def cfgFinance : FilterConfig :=
  ⟨some true, some [financeCat], some [(financeCat, [kwStock, kwMarket])]⟩

/-- Enabled but with an empty category list (incomplete configuration). -/
def cfgIncompleteCats : FilterConfig :=
  ⟨some true, some [], some [(financeCat, [kwStock])]⟩

/-- Enabled configuration whose single category has one zero-length
keyword. -/
def cfgEmptyKw : FilterConfig :=
  ⟨some true, some [catC], some [(catC, [emptyString])]⟩

/-- The tech/AI configuration from the case-insensitivity example. -/
def cfgTech : FilterConfig :=
  ⟨some true, some [techCat], some [(techCat, [kwAI])]⟩

/-- Scenario B result set. -/
def resB : List (String × List (String × Unit)) :=
  [(src1, [(titleStock, ()), (titleWeather, ())]), (src2, [(titleSports, ())])]

/-- A result set containing a source whose title map is empty. -/
def resEmptySource : List (String × List (String × Unit)) := [(src1, [])]

/-- A result set with one matching source and one empty source. -/
def resWithEmpty : List (String × List (String × Unit)) :=
  [(src1, [(titleStock, ())]), (src2, [])]

/-- Scenario A item list. -/
def itemsA : List (RssItem Unit) :=
  [⟨some tSurge, ()⟩, ⟨some tWeatherToday, ()⟩, ⟨some tFlat, ()⟩]

/-! Data and a spec-modelled folding for the case-handling claim. -/

/-- Modelled from the spec: "Unicode case-folding must be applied
consistently (not only ASCII lowercasing)".  Character-wise full Unicode
case folding on the repertoire of `pyLowerChar`: folding agrees with
lowercasing on it except that U+00DF `ß` folds to the two characters
`ss`.  This is the norm the claim states, to compare with the lowercasing
the source actually performs. -/
def specFoldChar (c : Char) : List Char :=
  if c = 'ß' then ['s', 's'] else [pyLowerChar c]

/-- Modelled from the spec: a whole string under consistent Unicode case
folding. -/
def specFoldStr (s : String) : List Char := s.data.flatMap specFoldChar

def kwEszett : String := "ß"
def titleStrasse : String := "STRASSE"
def kwUmlaut : String := "ÄRA"
def titleUmlaut : String := "neue ära beginnt"
def kwCyr : String := "МИР"
def titleCyr : String := "миру мир"

/-- Enabled config whose single category has the keyword ß. -/
def cfgEszett : FilterConfig :=
  ⟨some true, some [catC], some [(catC, [kwEszett])]⟩

/-- Enabled config with an upper-case umlaut keyword. -/
def cfgUmlaut : FilterConfig :=
  ⟨some true, some [catC], some [(catC, [kwUmlaut])]⟩

/-- Enabled config with an upper-case Cyrillic keyword. -/
def cfgCyr : FilterConfig :=
  ⟨some true, some [catC], some [(catC, [kwCyr])]⟩

/-! Helper lemmas about the embedded functions. -/

theorem matches_true_of_disabled (c : FilterConfig) (h : c.enabledD = false)
    (t : String) : matches_content_category t c = true := by
  simp [matches_content_category, h]

theorem matches_true_of_incomplete (c : FilterConfig) (he : c.enabledD = true)
    (h : c.categoriesD = [] ∨ c.keywordsD = []) (t : String) :
    matches_content_category t c = true := by
  rcases h with h | h <;> simp [matches_content_category, he, h]

theorem matches_iff (c : FilterConfig) (t : String) (he : c.enabledD = true)
    (hc : c.categoriesD ≠ []) (hk : c.keywordsD ≠ []) :
    matches_content_category t c = true ↔
      ∃ category ∈ c.categoriesD, ∃ keyword ∈ c.categoryKeywords category,
        (lowerStr keyword).data <:+: (lowerStr t).data := by
  have hc' : c.categoriesD.isEmpty = false := List.isEmpty_eq_false.mpr hc
  have hk' : c.keywordsD.isEmpty = false := List.isEmpty_eq_false.mpr hk
  simp [matches_content_category, he, hc', hk', strContains, List.any_eq_true]

theorem mem_filterSources (c : FilterConfig)
    (results : List (String × List (String × α)))
    (p : String × List (String × α)) :
    p ∈ filterSources c results ↔
      ∃ a ∈ results, filterTitles c a.2 ≠ [] ∧ p = (a.1, filterTitles c a.2) := by
  simp only [filterSources, List.mem_filterMap]
  constructor
  · rintro ⟨a, ha, hf⟩
    refine ⟨a, ha, ?_⟩
    by_cases h : (filterTitles c a.2).isEmpty
    · simp [h] at hf
    · rw [Bool.not_eq_true] at h
      simp only [h, Bool.false_eq_true, if_false, Option.some_inj] at hf
      exact ⟨List.isEmpty_eq_false.mp h, hf.symm⟩
  · rintro ⟨a, ha, hne, rfl⟩
    refine ⟨a, ha, ?_⟩
    simp [List.isEmpty_eq_false.mpr hne]

theorem filterSources_keys_sublist (c : FilterConfig)
    (results : List (String × List (String × α))) :
    ((filterSources c results).map Prod.fst).Sublist (results.map Prod.fst) := by
  induction results with
  | nil => simp [filterSources]
  | cons p l ih =>
    simp only [filterSources, List.filterMap_cons, List.map_cons] at *
    by_cases h : (filterTitles c p.2).isEmpty
    · simp only [h, if_true]
      exact ih.cons p.1
    · rw [Bool.not_eq_true] at h
      simp only [h, Bool.false_eq_true, if_false, List.map_cons]
      exact ih.cons₂ p.1

theorem filterSources_eq_filter_of_matchesAll (c : FilterConfig)
    (hall : ∀ t, matches_content_category t c = true)
    (results : List (String × List (String × α))) :
    filterSources c results = results.filter fun p => !p.2.isEmpty := by
  induction results with
  | nil => rfl
  | cons p l ih =>
    have hft : filterTitles c p.2 = p.2 :=
      List.filter_eq_self.mpr fun a _ => hall a.1
    simp only [filterSources, List.filterMap_cons, List.filter_cons] at *
    rw [hft]
    by_cases h : p.2.isEmpty
    · simp [h, ih]
    · rw [Bool.not_eq_true] at h
      simp [h, ih]

theorem filterTitles_idem (c : FilterConfig) (tm : List (String × α)) :
    filterTitles c (filterTitles c tm) = filterTitles c tm := by
  simp only [filterTitles, List.filter_filter, Bool.and_self]

theorem filterSources_eq_self (c : FilterConfig)
    (l : List (String × List (String × α)))
    (h : ∀ p ∈ l, filterTitles c p.2 = p.2 ∧ p.2 ≠ []) :
    filterSources c l = l := by
  induction l with
  | nil => rfl
  | cons p l ih =>
    obtain ⟨h1, h2⟩ := h p (List.mem_cons_self p l)
    simp only [filterSources, List.filterMap_cons, h1,
      List.isEmpty_eq_false.mpr h2, Bool.false_eq_true, if_false]
    rw [show List.filterMap _ l = filterSources c l from rfl,
      ih fun q hq => h q (List.mem_cons_of_mem p hq)]

theorem filterSources_idem (c : FilterConfig)
    (results : List (String × List (String × α))) :
    filterSources c (filterSources c results) = filterSources c results := by
  refine filterSources_eq_self c _ fun p hp => ?_
  obtain ⟨a, _, hne, rfl⟩ := (mem_filterSources c results p).mp hp
  exact ⟨filterTitles_idem c a.2, hne⟩

/-- C1: for every config in which the enabled flag is false or absent, the
matcher accepts every title and both filters return their input collection
unchanged (same elements, same order). -/
theorem c1_disabled_passthrough (c : FilterConfig) (h : c.enabledD = false) :
    (∀ t, matches_content_category t c = true) ∧
    (∀ (α : Type) (results : List (String × List (String × α))) (q : Bool),
      (filter_results_by_category results c q).1 = results) ∧
    (∀ (α : Type) (items : List (RssItem α)) (q : Bool),
      (filter_rss_items_by_category items c q).1 = items) := by
  refine ⟨matches_true_of_disabled c h, fun α results q => ?_,
    fun α items q => ?_⟩ <;>
  simp [filter_results_by_category, filter_rss_items_by_category, h]

/-- C1 witness: the configuration dictionary with no keys at all passes the
scenario data through unchanged. -/
theorem c1_disabled_passthrough_witness :
    matches_content_category titleStock cfgOff = true ∧
    (filter_results_by_category resB cfgOff false).1 = resB ∧
    (filter_rss_items_by_category itemsA cfgOff false).1 = itemsA := by
  have h := c1_disabled_passthrough cfgOff (by decide)
  exact ⟨h.1 titleStock, h.2.1 Unit resB false, h.2.2 Unit itemsA false⟩

/-- C2 counterexample: with `ENABLED = true` and `CATEGORIES = []`, a result
set holding a source with an empty title map is not returned unchanged —
the empty source is dropped by the `if filtered_titles:` test, so the
fail-open pass-through is not literal identity on result sets. -/
theorem c2_counterexample :
    cfgIncompleteCats.enabledD = true ∧ cfgIncompleteCats.categoriesD = [] ∧
    (filter_results_by_category resEmptySource cfgIncompleteCats false).1 ≠
      resEmptySource := by decide

/-- C2 (amended): for enabled but incomplete configs (empty categories or
empty keywords) the matcher accepts every title and the item-list filter
returns its input unchanged; the result-set filter returns the input with
every source whose title map is empty dropped — and so equals the input
exactly when every source has a non-empty title map. -/
theorem c2_incomplete_failopen (c : FilterConfig) (he : c.enabledD = true)
    (hinc : c.categoriesD = [] ∨ c.keywordsD = []) :
    (∀ t, matches_content_category t c = true) ∧
    (∀ (α : Type) (items : List (RssItem α)) (q : Bool),
      (filter_rss_items_by_category items c q).1 = items) ∧
    (∀ (α : Type) (results : List (String × List (String × α))) (q : Bool),
      (filter_results_by_category results c q).1 =
        results.filter fun p => !p.2.isEmpty) ∧
    (∀ (α : Type) (results : List (String × List (String × α))) (q : Bool),
      (∀ p ∈ results, p.2 ≠ []) →
      (filter_results_by_category results c q).1 = results) := by
  have hall := matches_true_of_incomplete c he hinc
  refine ⟨hall, fun α items q => ?_, fun α results q => ?_,
    fun α results q hne => ?_⟩
  · by_cases hi : items.isEmpty
    · simp [filter_rss_items_by_category, he, hi]
    · have hfix : items.filter
          (fun it => matches_content_category it.titleD c) = items :=
        List.filter_eq_self.mpr fun a _ => hall a.titleD
      rw [Bool.not_eq_true] at hi
      simp [filter_rss_items_by_category, he, hi, hfix]
  · simp [filter_results_by_category, he,
      filterSources_eq_filter_of_matchesAll c hall]
  · have h2 : (results.filter fun p => !p.2.isEmpty) = results :=
      List.filter_eq_self.mpr fun a ha => by
        simp [List.isEmpty_eq_false.mpr (hne a ha)]
    simp [filter_results_by_category, he,
      filterSources_eq_filter_of_matchesAll c hall, h2]

/-- C2 witness at the enabled config with an empty category list. -/
theorem c2_incomplete_failopen_witness :
    matches_content_category titleStock cfgIncompleteCats = true ∧
    (filter_rss_items_by_category itemsA cfgIncompleteCats false).1 = itemsA ∧
    (filter_results_by_category resEmptySource cfgIncompleteCats false).1 =
      (resEmptySource.filter fun p => !p.2.isEmpty) ∧
    (filter_results_by_category resB cfgIncompleteCats false).1 = resB := by
  have h := c2_incomplete_failopen cfgIncompleteCats (by decide)
    (Or.inl (by decide))
  exact ⟨h.1 titleStock, h.2.1 Unit itemsA false,
    h.2.2.1 Unit resEmptySource false, h.2.2.2 Unit resB false (by decide)⟩

/-- C3 counterexample: every keyword of `cfgEmptyKw` has length zero, yet
the matcher accepts the empty title and an unrelated title: the code does
not skip zero-length keywords, since in Python the empty string is a
substring of every string. -/
theorem c3_counterexample :
    (cfgEmptyKw.keywordsD.all fun p => p.2.all fun kw =>
      kw.data.length == 0) = true ∧
    matches_content_category emptyString cfgEmptyKw = true ∧
    matches_content_category titleWeather cfgEmptyKw = true := by decide

/-- C3 (amended): zero-length keywords are not skipped.  For an enabled,
well-formed config a title matches exactly when some keyword — possibly
empty — of an allowed category is, after lowercasing, a substring of the
lowered title; in particular a config with an empty keyword in an allowed
category matches every title. -/
theorem c3_empty_keyword_matches (c : FilterConfig) (t : String)
    (he : c.enabledD = true) (hc : c.categoriesD ≠ [])
    (hk : c.keywordsD ≠ []) :
    (matches_content_category t c = true ↔
      ∃ category ∈ c.categoriesD, ∃ keyword ∈ c.categoryKeywords category,
        (lowerStr keyword).data <:+: (lowerStr t).data) ∧
    ((∃ category ∈ c.categoriesD,
        emptyString ∈ c.categoryKeywords category) →
      matches_content_category t c = true) := by
  refine ⟨matches_iff c t he hc hk, ?_⟩
  rintro ⟨category, hcat, hkw⟩
  refine (matches_iff c t he hc hk).mpr ⟨category, hcat, emptyString, hkw, ?_⟩
  have hdata : (lowerStr emptyString).data = [] := rfl
  rw [hdata]
  exact List.nil_infix

/-- C3 witness at the empty-keyword configuration. -/
theorem c3_empty_keyword_matches_witness :
    (matches_content_category titleWeather cfgEmptyKw = true ↔
      ∃ category ∈ cfgEmptyKw.categoriesD,
        ∃ keyword ∈ cfgEmptyKw.categoryKeywords category,
          (lowerStr keyword).data <:+: (lowerStr titleWeather).data) ∧
    ((∃ category ∈ cfgEmptyKw.categoriesD,
        emptyString ∈ cfgEmptyKw.categoryKeywords category) →
      matches_content_category titleWeather cfgEmptyKw = true) :=
  c3_empty_keyword_matches cfgEmptyKw titleWeather (by decide) (by decide)
    (by decide)

/-- C4: when the filter is enabled, the result-set filter omits from its
output every source whose input title map is empty (the `if
filtered_titles:` test), so the output can differ from the input even when
no individual title is rejected; moreover no output source ever has an
empty title map. -/
theorem c4_empty_sources_dropped (c : FilterConfig) (α : Type)
    (results : List (String × List (String × α))) (q : Bool)
    (he : c.enabledD = true) (hnd : (results.map Prod.fst).Nodup) :
    (∀ p ∈ (filter_results_by_category results c q).1, p.2 ≠ []) ∧
    (∀ s, (s, ([] : List (String × α))) ∈ results →
      s ∉ (filter_results_by_category results c q).1.map Prod.fst) := by
  have hout : (filter_results_by_category results c q).1 =
      filterSources c results := by
    simp [filter_results_by_category, he]
  rw [hout]
  constructor
  · intro p hp
    obtain ⟨a, _, hne, rfl⟩ := (mem_filterSources c results p).mp hp
    exact hne
  · intro s hs hmem
    rw [List.mem_map] at hmem
    obtain ⟨p, hp, hps⟩ := hmem
    obtain ⟨a, ha, hne, rfl⟩ := (mem_filterSources c results p).mp hp
    have heq : a = (s, ([] : List (String × α))) :=
      List.inj_on_of_nodup_map hnd ha hs (by simpa using hps)
    rw [heq] at hne
    exact hne rfl

/-- C4 witness: on a result set holding a matching source and a source with
an empty title map, the empty source is absent from the output. -/
theorem c4_empty_sources_dropped_witness :
    src2 ∉
      (filter_results_by_category resWithEmpty cfgFinance false).1.map
        Prod.fst :=
  (c4_empty_sources_dropped cfgFinance Unit resWithEmpty false (by decide)
    (by decide)).2 src2 (by decide)

/-- C5: for an enabled, well-formed config a source is kept in the output
of the result-set filter exactly when at least one of its titles matches;
sources whose every title is filtered out are dropped entirely.  The
witness checks Scenario B, including the before/after counts 3 and 1. -/
theorem c5_source_kept_iff (c : FilterConfig) (α : Type)
    (results : List (String × List (String × α))) (q : Bool)
    (s : String) (tm : List (String × α))
    (he : c.enabledD = true) (hc : c.categoriesD ≠ []) (hk : c.keywordsD ≠ [])
    (hnd : (results.map Prod.fst).Nodup) (hmem : (s, tm) ∈ results) :
    s ∈ (filter_results_by_category results c q).1.map Prod.fst ↔
      ∃ p ∈ tm, matches_content_category p.1 c = true := by
  have hout : (filter_results_by_category results c q).1 =
      filterSources c results := by
    simp [filter_results_by_category, he]
  rw [hout]
  constructor
  · intro hs
    rw [List.mem_map] at hs
    obtain ⟨p, hp, hps⟩ := hs
    obtain ⟨a, ha, hne, rfl⟩ := (mem_filterSources c results p).mp hp
    have heq : a = (s, tm) :=
      List.inj_on_of_nodup_map hnd ha hmem (by simpa using hps)
    rw [heq] at hne
    rcases List.exists_mem_of_ne_nil _ hne with ⟨x, hx⟩
    rw [show filterTitles c (s, tm).2 = filterTitles c tm from rfl,
      filterTitles, List.mem_filter] at hx
    exact ⟨x, hx.1, hx.2⟩
  · rintro ⟨p, hp, hmatch⟩
    have hne : filterTitles c tm ≠ [] := by
      intro h0
      rw [filterTitles, List.filter_eq_nil_iff] at h0
      exact h0 p hp hmatch
    rw [List.mem_map]
    exact ⟨(s, filterTitles c tm),
      (mem_filterSources c results _).mpr ⟨(s, tm), hmem, hne, rfl⟩, rfl⟩

/-- C5 witness: Scenario B.  The output keeps only src1 with its single
matching title, the counts are 3 before and 1 after, and src2 is absent
exactly because its only title does not match. -/
theorem c5_source_kept_iff_witness :
    (filter_results_by_category resB cfgFinance false).1 =
      [(src1, [(titleStock, ())])] ∧
    totalTitles resB = 3 ∧
    totalTitles (filter_results_by_category resB cfgFinance false).1 = 1 ∧
    (src2 ∈ (filter_results_by_category resB cfgFinance false).1.map
        Prod.fst ↔
      ∃ p ∈ [(titleSports, ())],
        matches_content_category p.1 cfgFinance = true) := by
  refine ⟨by decide, by decide, by decide, ?_⟩
  exact c5_source_kept_iff cfgFinance Unit resB false src2 [(titleSports, ())]
    (by decide) (by decide) (by decide) (by decide) (by decide)

/-- C6: order preservation.  The retained items of the item-list filter
form a sublist of the input (same relative order); the retained source
keys of the result-set filter form a sublist of the input keys; and each
retained source keeps a sublist of its input titles. -/
theorem c6_order_preserved (c : FilterConfig) (α : Type) (q : Bool) :
    (∀ items : List (RssItem α),
      ((filter_rss_items_by_category items c q).1).Sublist items) ∧
    (∀ results : List (String × List (String × α)),
      (((filter_results_by_category results c q).1.map Prod.fst).Sublist
        (results.map Prod.fst)) ∧
      ∀ p ∈ (filter_results_by_category results c q).1,
        ∃ tm, (p.1, tm) ∈ results ∧ p.2.Sublist tm) := by
  by_cases he : c.enabledD = true
  · constructor
    · intro items
      by_cases hi : items.isEmpty
      · simp [filter_rss_items_by_category, he, hi]
      · rw [Bool.not_eq_true] at hi
        simp only [filter_rss_items_by_category, he, hi, Bool.not_true,
          Bool.false_eq_true, if_false]
        exact List.filter_sublist items
    · intro results
      have hout : (filter_results_by_category results c q).1 =
          filterSources c results := by
        simp [filter_results_by_category, he]
      rw [hout]
      refine ⟨filterSources_keys_sublist c results, fun p hp => ?_⟩
      obtain ⟨a, ha, _, rfl⟩ := (mem_filterSources c results p).mp hp
      exact ⟨a.2, by simpa using ha, List.filter_sublist a.2⟩
  · rw [Bool.not_eq_true] at he
    constructor
    · intro items
      simp [filter_rss_items_by_category, he]
    · intro results
      have hout : (filter_results_by_category results c q).1 = results := by
        simp [filter_results_by_category, he]
      rw [hout]
      exact ⟨List.Sublist.refl _, fun p hp =>
        ⟨p.2, by simpa using hp, List.Sublist.refl _⟩⟩

/-- C7: subset property.  For an enabled, well-formed config every item in
the output of the item-list filter is an input item, and every
(source, title) key pair of the output of the result-set filter is a key
pair of the input: filtering never adds or invents elements. -/
theorem c7_subset (c : FilterConfig) (he : c.enabledD = true)
    (hc : c.categoriesD ≠ []) (hk : c.keywordsD ≠ []) :
    (∀ (α : Type) (items : List (RssItem α)) (q : Bool) (x : RssItem α),
      x ∈ (filter_rss_items_by_category items c q).1 → x ∈ items) ∧
    (∀ (α : Type) (results : List (String × List (String × α))) (q : Bool)
      (pr : String × String),
      pr ∈ resultPairs (filter_results_by_category results c q).1 →
        pr ∈ resultPairs results) := by
  constructor
  · intro α items q x hx
    by_cases hi : items.isEmpty
    · simp only [filter_rss_items_by_category, he, Bool.not_true,
        Bool.false_eq_true, if_false, hi, if_true] at hx
      exact hx
    · rw [Bool.not_eq_true] at hi
      simp only [filter_rss_items_by_category, he, Bool.not_true,
        Bool.false_eq_true, if_false, hi] at hx
      exact (List.mem_filter.mp hx).1
  · intro α results q pr hpr
    have hout : (filter_results_by_category results c q).1 =
        filterSources c results := by
      simp [filter_results_by_category, he]
    rw [hout, resultPairs, List.mem_flatMap] at hpr
    obtain ⟨p, hp, hpp⟩ := hpr
    rw [List.mem_map] at hpp
    obtain ⟨t, ht, rfl⟩ := hpp
    obtain ⟨a, ha, _, rfl⟩ := (mem_filterSources c results p).mp hp
    have ht' : t ∈ a.2 := by
      rw [show ((a.1, filterTitles c a.2) :
            String × List (String × α)).2 = filterTitles c a.2 from rfl,
        filterTitles, List.mem_filter] at ht
      exact ht.1
    rw [resultPairs, List.mem_flatMap]
    exact ⟨a, ha, List.mem_map.mpr ⟨t, ht', rfl⟩⟩

/-- C7 witness: the first Scenario A item kept by the filter is an input
item, and the (src1, title) key pair kept in Scenario B is an input key
pair. -/
theorem c7_subset_witness :
    (⟨some tSurge, ()⟩ : RssItem Unit) ∈ itemsA ∧
    (src1, titleStock) ∈ resultPairs resB := by
  have h := c7_subset cfgFinance (by decide) (by decide) (by decide)
  exact ⟨h.1 Unit itemsA false _ (by decide),
    h.2 Unit resB false _ (by decide)⟩

/-- C8: idempotence.  Applying either filter twice with the same config
yields the same collection as applying it once, for any quiet flags. -/
theorem c8_idempotent (c : FilterConfig) (α : Type) (q q' : Bool) :
    (∀ items : List (RssItem α),
      (filter_rss_items_by_category
        ((filter_rss_items_by_category items c q).1) c q').1 =
        (filter_rss_items_by_category items c q).1) ∧
    (∀ results : List (String × List (String × α)),
      (filter_results_by_category
        ((filter_results_by_category results c q).1) c q').1 =
        (filter_results_by_category results c q).1) := by
  by_cases he : c.enabledD = true
  · constructor
    · intro items
      by_cases hi : items.isEmpty
      · have h1 : (filter_rss_items_by_category items c q).1 = items := by
          simp [filter_rss_items_by_category, he, hi]
        rw [h1]
        simp [filter_rss_items_by_category, he, hi]
      · rw [Bool.not_eq_true] at hi
        have h1 : (filter_rss_items_by_category items c q).1 =
            items.filter fun it => matches_content_category it.titleD c := by
          simp [filter_rss_items_by_category, he, hi]
        rw [h1]
        by_cases h2 : (items.filter fun it =>
            matches_content_category it.titleD c).isEmpty
        · simp [filter_rss_items_by_category, he, h2]
        · rw [Bool.not_eq_true] at h2
          have h3 : (filter_rss_items_by_category
              (items.filter fun it => matches_content_category it.titleD c)
              c q').1 =
              (items.filter fun it =>
                matches_content_category it.titleD c).filter fun it =>
                  matches_content_category it.titleD c := by
            simp [filter_rss_items_by_category, he, h2]
          rw [h3, List.filter_filter]
          exact List.filter_congr fun x _ => Bool.and_self _
    · intro results
      have h1 : (filter_results_by_category results c q).1 =
          filterSources c results := by
        simp [filter_results_by_category, he]
      have h2 : (filter_results_by_category (filterSources c results)
          c q').1 = filterSources c (filterSources c results) := by
        simp [filter_results_by_category, he]
      rw [h1, h2, filterSources_idem]
  · rw [Bool.not_eq_true] at he
    have hid : ∀ (l : List (RssItem α)) (qq : Bool),
        (filter_rss_items_by_category l c qq).1 = l := by
      intro l qq
      simp [filter_rss_items_by_category, he]
    have hid2 : ∀ (l : List (String × List (String × α))) (qq : Bool),
        (filter_results_by_category l c qq).1 = l := by
      intro l qq
      simp [filter_results_by_category, he]
    exact ⟨fun items => by rw [hid, hid], fun results => by rw [hid2, hid2]⟩

/-- C9 counterexample: the matcher is not case-insensitive under consistent
Unicode case-folding.  With the enabled, well-formed config whose keyword
is ß, the title STRASSE contains the keyword up to case folding (ß folds
to ss, which is a substring of the folded title strasse), yet the matcher
rejects the title: the code lowercases (`str.lower`), and the lowered
keyword ß is not a substring of the lowered title strasse. -/
theorem c9_counterexample :
    cfgEszett.enabledD = true ∧ cfgEszett.categoriesD ≠ [] ∧
    cfgEszett.keywordsD ≠ [] ∧
    specFoldStr kwEszett <:+: specFoldStr titleStrasse ∧
    matches_content_category titleStrasse cfgEszett = false := by decide

/-- C9 (amended): matching is case-insensitive under the programs
character-wise Unicode lowercasing — not under full case-folding.  For an
enabled, well-formed config, any keyword of an allowed category whose
lowercasing is a substring of the lowercased title makes the matcher
accept the title, whatever the capitalization of either side and in any
script of the covered repertoire; the witness checks an ASCII, a Latin-1
umlaut and a Cyrillic capitalization. -/
theorem c9_case_insensitive (c : FilterConfig)
    (title category keyword : String)
    (he : c.enabledD = true) (hc : c.categoriesD ≠ []) (hk : c.keywordsD ≠ [])
    (hcat : category ∈ c.categoriesD)
    (hkw : keyword ∈ c.categoryKeywords category)
    (hsub : (lowerStr keyword).data <:+: (lowerStr title).data) :
    matches_content_category title c = true :=
  (matches_iff c title he hc hk).mpr ⟨category, hcat, keyword, hkw, hsub⟩

/-- C9 witness: the upper-case keywords AI, ÄRA and МИР accept the
lower-case titles containing ai, ära and мир. -/
theorem c9_case_insensitive_witness :
    matches_content_category riseTitle cfgTech = true ∧
    matches_content_category titleUmlaut cfgUmlaut = true ∧
    matches_content_category titleCyr cfgCyr = true :=
  ⟨c9_case_insensitive cfgTech riseTitle techCat kwAI (by decide) (by decide)
      (by decide) (by decide) (by decide) (by decide),
   c9_case_insensitive cfgUmlaut titleUmlaut catC kwUmlaut (by decide)
      (by decide) (by decide) (by decide) (by decide) (by decide),
   c9_case_insensitive cfgCyr titleCyr catC kwCyr (by decide) (by decide)
      (by decide) (by decide) (by decide) (by decide)⟩

/-- C10: for every enabled config the item-list filter applied to the empty
item list returns the empty list and prints no summary line, whatever the
quiet flag. -/
theorem c10_empty_items (c : FilterConfig) (he : c.enabledD = true) :
    ∀ (α : Type) (q : Bool),
      filter_rss_items_by_category ([] : List (RssItem α)) c q = ([], []) := by
  intro α q
  simp [filter_rss_items_by_category, he]

/-- C10 witness at the scenario config, for both quiet values. -/
theorem c10_empty_items_witness :
    filter_rss_items_by_category ([] : List (RssItem Unit)) cfgFinance true =
      ([], []) ∧
    filter_rss_items_by_category ([] : List (RssItem Unit)) cfgFinance false =
      ([], []) :=
  ⟨c10_empty_items cfgFinance (by decide) Unit true,
   c10_empty_items cfgFinance (by decide) Unit false⟩

end TrendRadar
